import Mathlib

/-!
Verification development for the `pyfields` library (smarie/python-pyfields).

This file shallowly embeds the field-descriptor core (`pyfields/core.py`),
the field registry (`pyfields/helpers.py`) and the constructor synthesizer
(`pyfields/init_makers.py`) and proves the specified properties about them.

Modelling conventions:
* Python values are modelled by the inductive `Value`, with a distinguished
  `Value.vnone` for Python's `None`.  The type-compatibility oracle (an
  external collaborator per the spec) is modelled by runtime-type membership
  (`isInstance`).
* A Python instance is an `Obj`: its `__dict__` is an association list from
  attribute names to values, plus its printable representation (`str(obj)`),
  used in error messages.
* Exceptions are modelled with `Except`; a raising operation returns the
  (possibly updated) object state together with `Except FieldErr Value`, so
  that mutation-before-raise would be observable.
* We model the python >= 3.6 code paths (`PY36 = True`): class member order
  is preserved and names are bound at class-creation time, so the lazy
  name-fixing machinery (`fix_field`) is the identity and is elided.
-/

namespace Pyfields

/-- Runtime types of the Python values in the model. -/
inductive PyType where
  | tNone
  | tBool
  | tInt
  | tFloat
  | tStr
  deriving DecidableEq, Repr

/-- Python values, with a distinguished `None`.  Floats are carried as a
pair of integers (the claims never compute with them). -/
inductive Value where
  | vnone
  | vbool (b : Bool)
  | vint (n : Int)
  | vfloat (mantissa : Int) (exponent : Int)
  | vstr (s : String)
  deriving DecidableEq, Repr

/-- Runtime type `type(v)` in the model. -/
def Value.typeOf : Value → PyType
  | .vnone => .tNone
  | .vbool _ => .tBool
  | .vint _ => .tInt
  | .vfloat _ _ => .tFloat
  | .vstr _ => .tStr

/-- Class name `v.__class__.__name__`. -/
def Value.clsName : Value → String
  | .vnone => "NoneType"
  | .vbool _ => "bool"
  | .vint _ => "int"
  | .vfloat _ _ => "float"
  | .vstr _ => "str"

/-- Representation `repr(v)`, used in error messages. -/
def Value.reprStr : Value → String
  | .vnone => "None"
  | .vbool b => if b then "True" else "False"
  | .vint n => toString n
  | .vfloat m e => toString m ++ "e" ++ toString e
  | .vstr s => "'" ++ s ++ "'"

/-- Printed form `str(t)` for a type, as Python prints it. -/
def pyTypeStr : PyType → String
  | .tNone => "<class 'NoneType'>"
  | .tBool => "<class 'bool'>"
  | .tInt => "<class 'int'>"
  | .tFloat => "<class 'float'>"
  | .tStr => "<class 'str'>"

/-- The external type-compatibility oracle (`assert_is_of_type`, spec: a
black-box "is-instance-of" oracle).  A type hint is a list of alternate
accepted types (a single type is a one-element list). -/
def isInstance (v : Value) (ts : List PyType) : Bool :=
  ts.any (fun t => v.typeOf = t)

/-- A Python instance: its printable representation and its `__dict__`. -/
structure Obj where
  objRepr : String
  dict : List (String × Value)
  deriving DecidableEq, Repr

/-- Update-or-append in an association list (Python dict assignment). -/
def dictSet : List (String × Value) → String → Value → List (String × Value)
  | [], nm, v => [(nm, v)]
  | (k, w) :: rest, nm, v =>
      if k = nm then (nm, v) :: rest else (k, w) :: dictSet rest nm v

/-- Python `getattr(obj, nm, _unset)` restricted to the instance `__dict__`. -/
def Obj.getattr (o : Obj) (nm : String) : Option Value :=
  (o.dict.find? (fun p => p.1 = nm)).map (fun p => p.2)

/-- Python `setattr(obj, nm, v)` (stores into the instance `__dict__`). -/
def Obj.setattr (o : Obj) (nm : String) (v : Value) : Obj :=
  { o with dict := dictSet o.dict nm v }

/-- The tri-state `nonable` attribute of a field: `True`, `False` or the
`UNKNOWN` symbol (the `GUESS` symbol is resolved away in `Field.__init__`). -/
inductive Nonable where
  | yes
  | no
  | unknown
  deriving DecidableEq, Repr

/-- The default policy of a field: exactly one of no-default (mandatory),
fixed default value, or default factory called with the instance
(`Field.__init__`: `is_mandatory` / `default` / `is_default_factory`). -/
inductive DefaultPolicy where
  | mandatory
  | value (v : Value)
  | factory (f : Obj → Value)

/-- Base class for fields (`pyfields.core.Field`), already bound to its
owner class (`__set_name__` has run, so `name` and `owner_cls` are known). -/
structure Field where
  name : String
  ownerQualname : String
  defaultPolicy : DefaultPolicy
  typeHint : Option (List PyType)  -- `none` models the EMPTY symbol
  nonable : Nonable

/-- Property `Field.qualname` (`"%s.%s" % (owner_qualname, self.name)`). -/
def Field.qualname (f : Field) : String :=
  f.ownerQualname ++ "." ++ f.name

/-- Property `Field.is_mandatory`. -/
def Field.isMandatory (f : Field) : Bool :=
  match f.defaultPolicy with
  | .mandatory => true
  | _ => false

/-- Property `Field.is_default_factory`. -/
def Field.isDefaultFactory (f : Field) : Bool :=
  match f.defaultPolicy with
  | .factory _ => true
  | _ => false

/-- A converter attached to a field (`validate_n_convert.Converter`): an
"accepts?" probe and a conversion, both able to raise (`Except.error`).
The probe may return `None` (`Option.none`), which counts as acceptance.
The `field` argument that Python passes along is elided (the setter only
forwards it). -/
structure Converter where
  accepts : Obj → Value → Except Unit (Option Bool)
  convert : Obj → Value → Except Unit Value

/-- The `_default_is_safe` tri-state of `DescriptorField.__init__`:
`_NO` (always validate the default), `_NO_BUT_CAN_CACHE_FIRST_RESULT`
(validate once then remember), `_YES` (known valid). -/
inductive DefaultSafety where
  | alwaysValidate
  | validateOnce
  | safe
  deriving DecidableEq, Repr

/-- Class `pyfields.core.DescriptorField`: a field with type checking,
validators, converters and read-only support.  The root validator is the
external valid8 collaborator, modelled as a predicate on (instance, value)
(`True`/`None` = success, otherwise it raises). -/
structure DescriptorField extends Field where
  checkType : Bool
  rootValidator : Option (Obj → Value → Bool)
  converters : Option (List Converter)
  readOnly : Bool
  defaultIsSafe : DefaultSafety

/-- Value of `_default_is_safe` as computed by `DescriptorField.__init__`: a fixed
default is validated once; a factory is validated every time unless it is
the marked `copy_value` factory (detected via `clone_with_new_val`). -/
def initDefaultIsSafe (dp : DefaultPolicy) (factoryIsCopyValue : Bool) : DefaultSafety :=
  match dp with
  | .value _ => .validateOnce
  | .factory _ => if factoryIsCopyValue then .validateOnce else .alwaysValidate
  | .mandatory => .alwaysValidate

/-- The field-related exceptions raised by the embedded code, carrying the
data their constructors receive at each raise site. -/
inductive FieldErr where
  | mandatoryFieldInitError (fieldName : String) (objRepr : String)
  | readOnlyFieldError (fieldName : String) (objRepr : String)
  | noneError (qualname : String)
  | fieldTypeError (qualname : String) (expected : List PyType)
      (valueClsName : String) (valueRepr : String)
  | configError
  | validationError (qualname : String)
  deriving DecidableEq, Repr

/-- The inlined conversion loop of `DescriptorField.__set__` (core.py
lines 1078-1101): try each converter in order; a probe that raises or
rejects skips the converter, a conversion that raises skips it, the first
successful conversion wins, and if none succeeds the original value is
kept. -/
def applyConverters (convs : List Converter) (obj : Obj) (value : Value) : Value :=
  match convs with
  | [] => value
  | c :: rest =>
    match c.accepts obj value with
    | .error _ => applyConverters rest obj value
    | .ok accepted =>
      if accepted.getD true then
        match c.convert obj value with
        | .error _ => applyConverters rest obj value
        | .ok converted => converted
      else
        applyConverters rest obj value

/-- The candidate value after the conversion step of the setter: the
converter chain is applied only when converters are attached. -/
def convertedCandidate (f : DescriptorField) (obj : Obj) (value : Value) : Value :=
  match f.converters with
  | none => value
  | some convs => applyConverters convs obj value

/-- The type-check and validation steps of `DescriptorField.__set__`
(core.py lines 1116-1142) on the post-conversion candidate: returns the
exception to raise, if any. -/
def descSetChecks (f : DescriptorField) (obj : Obj) (value : Value) : Option FieldErr :=
  let runValidators : Option FieldErr :=
    match f.rootValidator with
    | some validate => if validate obj value then none
                       else some (.validationError f.toField.qualname)
    | none => none
  if value ≠ Value.vnone ∨ f.nonable = Nonable.unknown then
    -- `if value is not None or nonable is UNKNOWN`
    if f.checkType then
      match f.typeHint with
      | none => some .configError  -- `check_type` enabled but no type hint
      | some ts =>
        if isInstance value ts then runValidators
        else some (.fieldTypeError f.toField.qualname ts value.clsName value.reprStr)
    else runValidators
  else if f.nonable = Nonable.no then
    -- `elif not nonable`: value is None on an explicitly non-nonable field
    some (.noneError f.toField.qualname)
  else
    -- value is None and the field is nonable: nothing to do
    none

/-- Method `DescriptorField.__set__` (core.py lines 1061-1149): conversion, then
the read-only check, then type-check/validation, and only then the store
into the private slot.  Returns the object state (updated only by the
final store) and the outcome (`_return=True` gives back the stored
value). -/
def descSet (f : DescriptorField) (obj : Obj) (value : Value) :
    Obj × Except FieldErr Value :=
  let value := convertedCandidate f obj value
  let privateName := "_" ++ f.name
  if f.readOnly && (obj.getattr privateName).isSome then
    (obj, .error (.readOnlyFieldError f.toField.qualname obj.objRepr))
  else
    match descSetChecks f obj value with
    | some e => (obj, .error e)
    | none => (obj.setattr privateName value, .ok value)

/-- The default-materialization path of `DescriptorField.__get__` (core.py
lines 1027-1053), after the default `value` has been computed from the
policy.  A "safe" default is stored directly; otherwise it goes through
`__set__`, and a once-cacheable default is replaced by its converted form
and marked safe. -/
def descGetDefault (f : DescriptorField) (obj : Obj) (value : Value)
    (isFactory : Bool) : DescriptorField × Obj × Except FieldErr Value :=
  let privateName := "_" ++ f.name
  if f.defaultIsSafe = DefaultSafety.safe then
    (f, obj.setattr privateName value, .ok value)
  else
    match descSet f obj value with
    | (obj2, .error e) => (f, obj2, .error e)
    | (obj2, .ok possiblyConverted) =>
      if f.defaultIsSafe = DefaultSafety.validateOnce then
        let f2 :=
          if possiblyConverted ≠ value then
            { f with defaultPolicy :=
                if isFactory then DefaultPolicy.factory (fun _ => possiblyConverted)
                else DefaultPolicy.value possiblyConverted }
          else f
        ({ f2 with defaultIsSafe := DefaultSafety.safe }, obj2, .ok possiblyConverted)
      else
        (f, obj2, .ok possiblyConverted)

/-- Method `DescriptorField.__get__` on an instance (core.py lines 998-1055):
a set field returns the stored value directly; an unset mandatory field
raises `MandatoryFieldInitError(self.name, obj)`; an unset optional field
materializes its default.  Returns the possibly-updated field (default
safety caching) and object. -/
def descGet (f : DescriptorField) (obj : Obj) :
    DescriptorField × Obj × Except FieldErr Value :=
  let privateName := "_" ++ f.name
  match obj.getattr privateName with
  | some value => (f, obj, .ok value)
  | none =>
    match f.defaultPolicy with
    | .mandatory => (f, obj, .error (.mandatoryFieldInitError f.name obj.objRepr))
    | .value v => descGetDefault f obj v false
    | .factory g => descGetDefault f obj (g obj) true

/-- Method `NativeField.__get__` (core.py lines 814-848): reads the public name
from the instance `__dict__`; an unset mandatory field raises
`MandatoryFieldInitError(self.name, obj)`; an unset optional field stores
its default under the public name (cache-on-first-read). -/
def nativeGet (f : Field) (obj : Obj) : Obj × Except FieldErr Value :=
  match obj.getattr f.name with
  | some v => (obj, .ok v)
  | none =>
    match f.defaultPolicy with
    | .mandatory => (obj, .error (.mandatoryFieldInitError f.name obj.objRepr))
    | .value v => (obj.setattr f.name v, .ok v)
    | .factory g => (obj.setattr f.name (g obj), .ok (g obj))

/-- Writing to a native field: `NativeField` defines no `__set__`, so an
ordinary attribute write stores directly into the instance `__dict__`. -/
def nativeSet (f : Field) (obj : Obj) (v : Value) : Obj :=
  obj.setattr f.name v

/-! ## Error messages

The `__str__` of each exception class, reproduced verbatim from
`core.py` (`MandatoryFieldInitError`, `ReadOnlyFieldError`, `NoneError`)
and `typing_utils.py` (`FieldTypeError`).  The validator failure message
belongs to the external valid8 collaborator and is only sketched. -/

/-- The sub-message of `FieldTypeError.__str__`: a single expected type
prints one way, a tuple of alternates another (`FieldTypeError.__init__`
unwraps one-element tuples). -/
def fieldTypeSubMsg (ts : List PyType) : String :=
  match ts with
  | [t] => "Value should be of type " ++ pyTypeStr t
  | _ => "Value type should be one of (" ++ String.intercalate ", " (ts.map pyTypeStr) ++ ")"

/-- Messages `str(e)` for each modelled exception. -/
def errMsg : FieldErr → String
  | .mandatoryFieldInitError n o =>
      "Mandatory field '" ++ n ++ "' has not been initialized yet on instance " ++ o ++ "."
  | .readOnlyFieldError n o =>
      "Read-only field '" ++ n ++ "' has already been initialized on instance " ++ o
        ++ " and cannot be modified anymore."
  | .noneError q =>
      "Received invalid value `None` for '" ++ q
        ++ "'. This field is explicitely declared as non-nonable."
  | .fieldTypeError q ts cn vr =>
      "Invalid value type provided for '" ++ q ++ "'. " ++ fieldTypeSubMsg ts
        ++ ". Instead, received a '" ++ cn ++ "': " ++ vr
  | .configError =>
      "`check_type` is enabled on field '%s' but no type hint is available. Please provide type hints or set `field.check_type` to `False`. Note that python code is not able to read type comments so if you wish to be compliant with python < 3.6 you'll have to set the type hint explicitly in `field.type_hint` instead"
  | .validationError q =>
      "Error validating [" ++ q ++ "]."

/-- Boolean prefix test on character lists. -/
def charsStartWith : List Char → List Char → Bool
  | [], _ => true
  | _ :: _, [] => false
  | a :: as, b :: bs => a == b && charsStartWith as bs

/-- Boolean substring containment: does `sub` occur contiguously in `s`? -/
def strContains (s sub : String) : Bool :=
  (List.range (s.data.length + 1)).any
    (fun i => charsStartWith sub.data (s.data.drop i))

/-! ## Field registry (`pyfields/helpers.py`)

`yield_fields(cls)` walks the MRO ancestors-first, yields each class's
field members in declaration order, removes duplicates by name, and
substitutes the most-derived override for an ancestor's field.  A class is
abstracted by the member tables of its MRO: `vars(_cls)` for each class in
method-resolution order (the class itself first), each member tagged with
the field object it holds, if any.  Field objects are identified by an
id so that the override substitution is observable. -/

/-- A field object identity, as yielded by the registry. -/
structure FieldRef where
  fid : Nat
  deriving DecidableEq, Repr

/-- One entry of `vars(_cls)`: the member name, and the field object when
the member is a field (`none` when `get_field` raises `NotAFieldError`). -/
abbrev Member := String × Option FieldRef

/-- Attribute lookup along an MRO: the first class defining the name wins;
the result records whether that defining member is a field. -/
def getattrMember : List (List Member) → String → Option (Option FieldRef)
  | [], _ => none
  | ms :: rest, nm =>
    match ms.find? (fun m => m.1 = nm) with
    | some m => some m.2
    | none => getattrMember rest nm

/-- Function `helpers.get_field(cls, name)`: the attribute looked up along the MRO,
provided it is a field (`none` models `NotAFieldError`). -/
def getField (mro : List (List Member)) (nm : String) : Option FieldRef :=
  match getattrMember mro nm with
  | some (some f) => some f
  | _ => none

/-- The inner loop of `yield_fields` for one class `_cls` of the walk
(PY36 branch): skip `__init__`, skip non-fields, skip names already
yielded, and yield the override (`get_field(cls, member_name)`) instead of
the ancestor's field when `_cls` is not `cls`.  Returns the yielded fields
and the updated set of already-yielded names. -/
def processClass (clsMro : List (List Member)) (isCls : Bool) :
    List Member → List String → List FieldRef × List String
  | [], already => ([], already)
  | (nm, mem) :: rest, already =>
    if nm = "__init__" then processClass clsMro isCls rest already
    else
      match mem with
      | none => processClass clsMro isCls rest already
      | some f =>
        if already.contains nm then processClass clsMro isCls rest already
        else
          let yielded :=
            if isCls then f
            else
              match getField clsMro nm with
              | some overridden => overridden
              | none => f
          (yielded :: (processClass clsMro isCls rest (nm :: already)).1,
           (processClass clsMro isCls rest (nm :: already)).2)

/-- The outer loop of `yield_fields`: fold `processClass` over the classes
of the walk (each tagged with whether it is the queried class itself),
threading the set of already-yielded names. -/
def yieldFieldsFrom (clsMro : List (List Member)) :
    List (List Member × Bool) → List String → List FieldRef
  | [], _ => []
  | (ms, isCls) :: rest, already =>
    (processClass clsMro isCls ms already).1
      ++ yieldFieldsFrom clsMro rest (processClass clsMro isCls ms already).2

/-- Generator `helpers.yield_fields(cls)` with the default options
(`include_inherited=True, remove_duplicates=True, ancestors_first=True`),
PY36 branch: walk `reversed(getmro(cls))`, i.e. ancestors first and the
class itself last. -/
def yieldFields (mro : List (List Member)) : List FieldRef :=
  match mro with
  | [] => []
  | clsMembers :: ancestors =>
    yieldFieldsFrom mro
      (ancestors.reverse.map (fun ms => (ms, false)) ++ [(clsMembers, true)]) []

/-- The field members a single class contributes, in declaration order:
name and field object, `__init__` excluded. -/
def classFieldEntries (ms : List Member) : List (String × FieldRef) :=
  ms.filterMap (fun m =>
    if m.1 = "__init__" then none else m.2.map (fun f => (m.1, f)))

/-! ## Constructor synthesizer (`pyfields/init_makers.py`)

`create_init` (branch without a user post-init function) builds the
parameter list `self` + one parameter per field via
`_insert_fields_at_position(fields, [self], 1)`.  Parameters are modelled
by their name, default (absent = `Parameter.empty`, i.e. mandatory) and
annotation; a default-factory field gets the `USE_FACTORY` sentinel. -/

/-- A default value appearing in a synthesized signature: either the
`USE_FACTORY` sentinel or a field's fixed default value. -/
inductive SigDefault where
  | useFactory
  | value (v : Value)
  deriving DecidableEq, Repr

/-- An `inspect.Parameter` of the synthesized signature (all are
POSITIONAL_OR_KEYWORD). -/
structure Param where
  name : String
  default : Option SigDefault
  annotation : Option (List PyType)
  deriving DecidableEq, Repr

/-- The `self` parameter that starts every synthesized signature. -/
def selfParam : Param := { name := "self", default := none, annotation := none }

/-- Python `list.insert(n, a)` (insert before index `n`; append when
`n` is past the end). -/
def insertAt (l : List α) (n : Nat) (a : α) : List α :=
  l.take n ++ a :: l.drop n

/-- One iteration of the loop of `_insert_fields_at_position`: a mandatory
field is inserted at the fixed position `i` (bumping
`last_mandatory_idx`); an optional field is inserted at
`last_mandatory_idx`, with the `USE_FACTORY` sentinel as its signature
default when the field has a default factory. -/
def insertFieldsStep (i : Nat) (st : List String × Nat × List Param) (f : Field) :
    List String × Nat × List Param :=
  let (fieldNames, lastMandatoryIdx, params) := st
  let (whereToInsert, default, lastMandatoryIdx2) :=
    match f.defaultPolicy with
    | .mandatory => (i, (none : Option SigDefault), lastMandatoryIdx + 1)
    | .factory _ => (lastMandatoryIdx, some SigDefault.useFactory, lastMandatoryIdx)
    | .value v => (lastMandatoryIdx, some (SigDefault.value v), lastMandatoryIdx)
  let annotation := f.typeHint
  let newParam : Param := { name := f.name, default := default, annotation := annotation }
  (fieldNames ++ [f.name], lastMandatoryIdx2, insertAt params whereToInsert newParam)

/-- Function `_insert_fields_at_position(fields_to_insert, params, i)` (init_makers
lines 440-485): iterate the fields in reverse, inserting each at the
appropriate position.  Returns `(field_names, last_mandatory_idx,
params)`. -/
def insertFieldsAtPosition (fieldsToInsert : List Field) (params : List Param)
    (i : Nat) : List String × Nat × List Param :=
  fieldsToInsert.reverse.foldl (insertFieldsStep i) ([], i, params)

/-- The signature parameter a field contributes (for stating the
synthesizer's ordering property). -/
def Field.toParam (f : Field) : Param :=
  { name := f.name
  , default :=
      match f.defaultPolicy with
      | .mandatory => none
      | .factory _ => some SigDefault.useFactory
      | .value v => some (SigDefault.value v)
  , annotation := f.typeHint }

/-- The parameter list of the `__init__` synthesized by `create_init` when
no post-init function is supplied (init_makers lines 325-330):
`params = [self]`, then `_insert_fields_at_position(fields, params, 1)`. -/
def createInitParams (fields : List Field) : List Param :=
  (insertFieldsAtPosition fields [selfParam] 1).2.2

/-- The synthesized `__init__` function, abstracted by its signature. -/
structure InitFun where
  sig : List Param
  deriving DecidableEq, Repr

/-- Class `init_makers.InitDescriptor`, the `__init__` placeholder.  Its
`fields` attribute is the explicit field list given to `make_init`, or
`None`/empty meaning "collect all fields from the class".  The
user-post-init variant only changes the synthesized body/signature, not
the placeholder lifecycle, and is elided. -/
structure InitDescriptor where
  fields : Option (List Field)

/-- What a class holds under the `__init__` name: the placeholder
descriptor, or the installed synthesized function. -/
inductive InitSlot where
  | placeholder (d : InitDescriptor)
  | installed (f : InitFun)

/-- The class-level state the placeholder interacts with: the class's
registry field list (what `collect_all_fields(objtype)` returns -- the
ordered, deduplicated, override-aware list of §4.3, whose order semantics
are proved on `yieldFields`) and the current `__init__` slot. -/
structure ClsState where
  registryFields : List Field
  initSlot : InitSlot

/-- Field-list resolution in `InitDescriptor.__get__` (init_makers lines
262-269): an absent or empty explicit list means the full registry output
of the class. -/
def resolveFields (d : InitDescriptor) (cls : ClsState) : List Field :=
  match d.fields with
  | none => cls.registryFields
  | some [] => cls.registryFields
  | some fs => fs

/-- Function `create_init` restricted to its signature (branch A, no user
function). -/
def createInitFun (fields : List Field) : InitFun :=
  { sig := createInitParams fields }

/-- One access to `<cls>.__init__` (via the class or an instance).  If the
slot still holds the placeholder, `InitDescriptor.__get__` runs: it
resolves the field list, creates the init function, installs it on the
class with `setattr(objtype, '__init__', new_init)`, and returns it
(delegating the in-progress call).  If the slot holds the installed
function, ordinary attribute lookup returns it and the descriptor never
runs.  The `Nat` counts the syntheses performed by this access. -/
def accessInit (cls : ClsState) : InitFun × ClsState × Nat :=
  match cls.initSlot with
  | .installed f => (f, cls, 0)
  | .placeholder d =>
    let f := createInitFun (resolveFields d cls)
    (f, { cls with initSlot := .installed f }, 1)

/-! ## Basic lemmas about the object model -/

theorem dictSet_find_self (l : List (String × Value)) (nm : String) (v : Value) :
    (dictSet l nm v).find? (fun p => p.1 = nm) = some (nm, v) := by
  induction l with
  | nil => simp [dictSet]
  | cons p rest ih =>
    by_cases h : p.1 = nm
    · obtain ⟨k, w⟩ := p
      simp only at h
      simp [dictSet, h]
    · obtain ⟨k, w⟩ := p
      simp only at h
      simp [dictSet, h, List.find?, ih]

theorem getattr_setattr_self (o : Obj) (nm : String) (v : Value) :
    (o.setattr nm v).getattr nm = some v := by
  simp [Obj.setattr, Obj.getattr, dictSet_find_self]

theorem objRepr_setattr (o : Obj) (nm : String) (v : Value) :
    (o.setattr nm v).objRepr = o.objRepr := rfl

/-! ## Characterizations of the setter -/

/-- A successful `__set__` stored exactly the post-conversion candidate,
and did so into the private slot; the returned value is the stored one. -/
theorem descSet_ok (f : DescriptorField) (obj obj2 : Obj) (v v2 : Value)
    (h : descSet f obj v = (obj2, .ok v2)) :
    v2 = convertedCandidate f obj v ∧
    obj2 = obj.setattr ("_" ++ f.name) v2 := by
  unfold descSet at h
  simp only [] at h
  split at h
  · exact absurd (congrArg Prod.snd h) (by simp)
  · split at h
    · exact absurd (congrArg Prod.snd h) (by simp)
    · simp only [Prod.mk.injEq, Except.ok.injEq] at h
      refine ⟨h.2.symm, ?_⟩
      rw [← h.1, h.2]

/-- A failed `__set__` left the object untouched: the store into the
private slot is the last step of the setter and is only reached after
every check has passed. -/
theorem descSet_error (f : DescriptorField) (obj obj2 : Obj) (v : Value)
    (e : FieldErr) (h : descSet f obj v = (obj2, .error e)) :
    obj2 = obj := by
  unfold descSet at h
  simp only [] at h
  split at h
  · exact (congrArg Prod.fst h).symm
  · split at h
    · exact (congrArg Prod.fst h).symm
    · exact absurd (congrArg Prod.snd h) (by simp)

/-- A mandatory field has the `mandatory` default policy. -/
theorem isMandatory_eq (f : Field) (h : f.isMandatory = true) :
    f.defaultPolicy = .mandatory := by
  cases hd : f.defaultPolicy <;> simp [Field.isMandatory, hd] at h ⊢

/-- Setter `__set__` never changes the instance representation (it only ever
touches the private storage slot). -/
theorem descSet_objRepr (f : DescriptorField) (obj : Obj) (v : Value)
    (obj2 : Obj) (r : Except FieldErr Value) (h : descSet f obj v = (obj2, r)) :
    obj2.objRepr = obj.objRepr := by
  have : (descSet f obj v).1.objRepr = obj.objRepr := by
    unfold descSet
    simp only []
    split
    · rfl
    · split <;> simp [objRepr_setattr]
  rw [h] at this
  exact this

/-- The read-only guard: a write to a read-only field whose private slot
is already populated raises `ReadOnlyFieldError(self.qualname, obj)`
before any check or store. -/
theorem descSet_readonly_blocked (f : DescriptorField) (obj : Obj) (v : Value)
    (hRO : f.readOnly = true) (hset : (obj.getattr ("_" ++ f.name)).isSome = true) :
    descSet f obj v = (obj, .error (.readOnlyFieldError f.toField.qualname obj.objRepr)) := by
  unfold descSet
  simp [hRO, hset]

/-- After any successful `__get__`, the private slot holds the returned
value (reads of set fields find it there; default materialization stores
it there). -/
theorem descGet_ok_stored (f f2 : DescriptorField) (obj obj2 : Obj) (v2 : Value)
    (h : descGet f obj = (f2, obj2, .ok v2)) :
    obj2.getattr ("_" ++ f.name) = some v2 := by
  unfold descGet at h
  simp only [] at h
  split at h
  · -- already set: returned directly
    rename_i v hv
    simp only [Prod.mk.injEq, Except.ok.injEq] at h
    rw [← h.2.1, ← h.2.2, hv]
  · -- unset: default materialization
    split at h
    · exact absurd (congrArg (fun p => p.2.2) h) (by simp)
    all_goals {
      unfold descGetDefault at h
      simp only [] at h
      split at h
      · simp only [Prod.mk.injEq, Except.ok.injEq] at h
        rw [← h.2.1, ← h.2.2, getattr_setattr_self]
      · rename_i hsafe
        split at h
        · exact absurd (congrArg (fun p => p.2.2) h) (by simp)
        · rename_i obj3 pcv hset
          obtain ⟨hc1, hc2⟩ := descSet_ok f obj _ _ _ hset
          split at h <;>
            · simp only [Prod.mk.injEq, Except.ok.injEq] at h
              rw [← h.2.1, ← h.2.2, hc2, getattr_setattr_self]
    }

/-- Getter `__get__` only ever updates the default policy and the default-safety
cache of the field: its identity (name, owner, read-only flag, checks) and
the instance representation are unchanged. -/
theorem descGet_preserves (f f2 : DescriptorField) (obj obj2 : Obj)
    (r : Except FieldErr Value) (h : descGet f obj = (f2, obj2, r)) :
    f2.name = f.name ∧ f2.ownerQualname = f.ownerQualname ∧
    f2.readOnly = f.readOnly ∧ f2.checkType = f.checkType ∧
    obj2.objRepr = obj.objRepr := by
  unfold descGet at h
  simp only [] at h
  split at h
  · simp only [Prod.mk.injEq] at h
    rw [← h.1, ← h.2.1]
    exact ⟨rfl, rfl, rfl, rfl, rfl⟩
  · split at h
    · simp only [Prod.mk.injEq] at h
      rw [← h.1, ← h.2.1]
      exact ⟨rfl, rfl, rfl, rfl, rfl⟩
    all_goals {
      unfold descGetDefault at h
      simp only [] at h
      split at h
      · simp only [Prod.mk.injEq] at h
        rw [← h.1, ← h.2.1]
        exact ⟨rfl, rfl, rfl, rfl, rfl⟩
      · split at h
        · rename_i obj3 e hset
          simp only [Prod.mk.injEq] at h
          rw [← h.1, ← h.2.1]
          exact ⟨rfl, rfl, rfl, rfl, descSet_objRepr f obj _ _ _ hset⟩
        · rename_i obj3 pcv hset
          have hrep : obj3.objRepr = obj.objRepr := descSet_objRepr f obj _ _ _ hset
          split at h <;>
            · simp only [Prod.mk.injEq] at h
              rw [← h.1, ← h.2.1]
              refine ⟨?_, ?_, ?_, ?_, hrep⟩ <;>
                first
                | rfl
                | (split <;> rfl)
    }

/-- One converter "fails" on a value when its probe raises, its probe
rejects, or its probe accepts but the conversion raises. -/
def converterFails (c : Converter) (obj : Obj) (v : Value) : Prop :=
  c.accepts obj v = .error () ∨
  (∃ acc, c.accepts obj v = .ok acc ∧ acc.getD true = false) ∨
  (∃ acc, c.accepts obj v = .ok acc ∧ acc.getD true = true ∧ c.convert obj v = .error ())

/-- If every converter of the chain fails, the original value survives the
conversion step unchanged (and no error is raised: the conversion loop is
best-effort). -/
theorem applyConverters_all_fail (convs : List Converter) (obj : Obj) (v : Value)
    (h : ∀ c ∈ convs, converterFails c obj v) :
    applyConverters convs obj v = v := by
  induction convs with
  | nil => rfl
  | cons c rest ih =>
    have hc := h c (by simp)
    have hrest : applyConverters rest obj v = v :=
      ih (fun c2 hc2 => h c2 (by simp [hc2]))
    rcases hc with herr | ⟨acc, hacc, hrej⟩ | ⟨acc, hacc, hok, hcerr⟩
    · simp [applyConverters, herr, hrest]
    · simp [applyConverters, hacc, hrej, hrest]
    · simp [applyConverters, hacc, hok, hcerr, hrest]

/-! ## String containment lemmas -/

theorem charsStartWith_refl_append (p q : List Char) :
    charsStartWith p (p ++ q) = true := by
  induction p with
  | nil => rfl
  | cons a as ih => simp [charsStartWith, ih]

/-- A string built around `sub` contains `sub`. -/
theorem strContains_append_mid (a sub b : String) :
    strContains (a ++ (sub ++ b)) sub = true := by
  unfold strContains
  rw [List.any_eq_true]
  refine ⟨a.data.length, ?_, ?_⟩
  · rw [List.mem_range, String.data_append, String.data_append, List.length_append,
        List.length_append]
    omega
  · rw [String.data_append, String.data_append, List.drop_left]
    exact charsStartWith_refl_append sub.data b.data

/-- Containment established at the character level: if the character data
of `s` splits as `a ++ sub.data ++ b`, then `s` contains `sub`. -/
theorem strContains_of_data (s sub : String) (a b : List Char)
    (h : s.data = a ++ (sub.data ++ b)) : strContains s sub = true := by
  unfold strContains
  rw [List.any_eq_true]
  refine ⟨a.length, ?_, ?_⟩
  · rw [List.mem_range, h, List.length_append, List.length_append]
    omega
  · rw [h, List.drop_left]
    exact charsStartWith_refl_append sub.data b

/-! ## Concrete fixtures

User-level inputs (a `Wall.height` field in various configurations, a
string-to-int converter, an instance) used to instantiate the theorems
below on concrete data. -/

/-- Accumulating decimal parser over characters (a concrete user
converter body; kept structural so that it reduces definitionally). -/
def digitsToNat : List Char → Nat → Option Nat
  | [], acc => some acc
  | c :: cs, acc =>
      if c.isDigit then digitsToNat cs (acc * 10 + (c.toNat - 48)) else none

/-- Parse a non-empty decimal string. -/
def parseNat (s : String) : Option Nat :=
  match s.data with
  | [] => none
  | cs => digitsToNat cs 0

/-- A user converter `(str, parse_int)`: the probe accepts exactly
strings, the conversion parses decimal digits and raises otherwise. -/
def parseIntConverter : Converter :=
  { accepts := fun _ v => Except.ok (some (match v with | Value.vstr _ => true | _ => false))
  , convert := fun _ v =>
      match v with
      | Value.vstr s =>
        (match parseNat s with
         | some n => Except.ok (Value.vint n)
         | none => Except.error ())
      | _ => Except.error () }

/-- A fresh `Wall` instance. -/
def wallObj : Obj := { objRepr := "<Wall object at 0x7f>", dict := [] }

/-- A plain mandatory descriptor field `Wall.height`. -/
def wallHeight : DescriptorField :=
  { name := "height", ownerQualname := "Wall", defaultPolicy := .mandatory,
    typeHint := none, nonable := .unknown, checkType := false,
    rootValidator := none, converters := none, readOnly := false,
    defaultIsSafe := .alwaysValidate }

/-- Field `Wall.height` with the `(str, parse_int)` converter attached. -/
def wallHeightConv : DescriptorField :=
  { wallHeight with converters := some [parseIntConverter] }

/-- A read-only variant of `Wall.height`. -/
def wallHeightRO : DescriptorField :=
  { wallHeight with readOnly := true }

/-- A `Wall` instance whose `height` private slot is already populated. -/
def wallObjSet : Obj := wallObj.setattr "_height" (Value.vint 12)

/-! ## The claims -/

/-- C1 (amended).  For every field declared mandatory (no default
value and no default factory), reading the field on an instance where it
has never been set raises `MandatoryFieldInitError`; after a successful
write of a value to that field on that instance, a subsequent read
returns exactly the value stored by that write -- the post-conversion
candidate -- which is exactly the written value whenever the field has no
converters (and always, for native fields). -/
theorem claim_C1_mandatory_read_write
    (f : DescriptorField) (nf : Field) (obj obj2 : Obj) (v v2 : Value) :
    (f.toField.isMandatory = true → obj.getattr ("_" ++ f.name) = none →
       descGet f obj = (f, obj, .error (.mandatoryFieldInitError f.name obj.objRepr))) ∧
    (descSet f obj v = (obj2, .ok v2) → descGet f obj2 = (f, obj2, .ok v2)) ∧
    (f.converters = none → descSet f obj v = (obj2, .ok v2) → v2 = v) ∧
    (nf.isMandatory = true → obj.getattr nf.name = none →
       nativeGet nf obj = (obj, .error (.mandatoryFieldInitError nf.name obj.objRepr))) ∧
    nativeGet nf (nativeSet nf obj v) = (nativeSet nf obj v, .ok v) := by
  refine ⟨?_, ?_, ?_, ?_, ?_⟩
  · intro hm hu
    have hd := isMandatory_eq f.toField hm
    unfold descGet
    simp [hu, hd]
  · intro hset
    obtain ⟨hv, hobj⟩ := descSet_ok f obj obj2 v v2 hset
    unfold descGet
    simp only []
    rw [hobj, getattr_setattr_self]
  · intro hconv hset
    obtain ⟨hv, _⟩ := descSet_ok f obj obj2 v v2 hset
    rw [hv]
    simp [convertedCandidate, hconv]
  · intro hm hu
    have hd := isMandatory_eq nf hm
    unfold nativeGet
    simp [hu, hd]
  · unfold nativeGet nativeSet
    rw [getattr_setattr_self]

/-- Witness for C1: on the concrete mandatory `Wall.height`, an unset
read raises and a write of `12` then a read gives back `12`. -/
theorem claim_C1_witness :
    descGet wallHeight wallObj =
      (wallHeight, wallObj,
        .error (.mandatoryFieldInitError "height" "<Wall object at 0x7f>")) ∧
    descGet wallHeight (wallObj.setattr "_height" (Value.vint 12)) =
      (wallHeight, wallObj.setattr "_height" (Value.vint 12), .ok (Value.vint 12)) := by
  constructor
  · exact (claim_C1_mandatory_read_write wallHeight wallHeight.toField wallObj wallObj
      (Value.vint 12) (Value.vint 12)).1 (by rfl) (by rfl)
  · exact (claim_C1_mandatory_read_write wallHeight wallHeight.toField wallObj
      (wallObj.setattr "_height" (Value.vint 12)) (Value.vint 12) (Value.vint 12)).2.1
      (by rfl)

/-- Counterexample for C1 as stated: on a mandatory field with a
`(str, parse_int)` converter, writing the string `'6'` succeeds, but the
subsequent read returns the post-conversion integer `6`, not the written
value `'6'`. -/
theorem claim_C1_counterexample :
    wallHeightConv.toField.isMandatory = true ∧
    descSet wallHeightConv wallObj (Value.vstr "6") =
      (wallObj.setattr "_height" (Value.vint 6), .ok (Value.vint 6)) ∧
    descGet wallHeightConv (wallObj.setattr "_height" (Value.vint 6)) =
      (wallHeightConv, wallObj.setattr "_height" (Value.vint 6), .ok (Value.vint 6)) ∧
    Value.vint 6 ≠ Value.vstr "6" :=
  ⟨rfl, rfl, rfl, by decide⟩

/-- C8.  Round-trip through the pipeline: if a write succeeds, a
subsequent read on the same instance returns exactly the post-conversion
candidate that was stored (the converter's output when a converter won,
the original value otherwise). -/
theorem claim_C8_roundtrip (f : DescriptorField) (obj obj2 : Obj) (v v2 : Value)
    (h : descSet f obj v = (obj2, .ok v2)) :
    v2 = convertedCandidate f obj v ∧ descGet f obj2 = (f, obj2, .ok v2) := by
  obtain ⟨hv, hobj⟩ := descSet_ok f obj obj2 v v2 h
  refine ⟨hv, ?_⟩
  unfold descGet
  simp only []
  rw [hobj, getattr_setattr_self]

/-- Witness for C8: writing `'6'` through the converter stores and then
reads back the converted `6`. -/
theorem claim_C8_witness :
    Value.vint 6 = convertedCandidate wallHeightConv wallObj (Value.vstr "6") ∧
    descGet wallHeightConv (wallObj.setattr "_height" (Value.vint 6)) =
      (wallHeightConv, wallObj.setattr "_height" (Value.vint 6), .ok (Value.vint 6)) :=
  claim_C8_roundtrip wallHeightConv wallObj (wallObj.setattr "_height" (Value.vint 6))
    (Value.vstr "6") (Value.vint 6) (by rfl)

/-- C10.  Failed writes are atomic on descriptor fields: whenever
`__set__` raises, the instance state is unchanged -- the store into the
private slot is the last step of the setter, reached only after every
check has passed, so the field either remains unset or keeps its
previously stored value. -/
theorem claim_C10_failed_write_atomic (f : DescriptorField) (obj obj2 : Obj)
    (v : Value) (e : FieldErr) (h : descSet f obj v = (obj2, .error e)) :
    obj2 = obj ∧ obj2.getattr ("_" ++ f.name) = obj.getattr ("_" ++ f.name) := by
  have heq := descSet_error f obj obj2 v e h
  exact ⟨heq, by rw [heq]⟩

/-- C2.  For every read-only field and every instance, the first
successful write stores the value, and materialization of the field's
default on first read counts as that first write; every subsequent write
attempt on the same instance raises `ReadOnlyFieldError`. -/
theorem claim_C2_read_only (f f2 : DescriptorField) (obj obj2 : Obj)
    (v v2 w : Value) (hRO : f.readOnly = true) :
    (descSet f obj v = (obj2, .ok v2) → obj2.getattr ("_" ++ f.name) = some v2) ∧
    ((obj.getattr ("_" ++ f.name)).isSome = true →
       descSet f obj v = (obj, .error (.readOnlyFieldError f.toField.qualname obj.objRepr))) ∧
    (descGet f obj = (f2, obj2, .ok v2) →
       obj2.getattr ("_" ++ f2.name) = some v2 ∧
       descSet f2 obj2 w =
         (obj2, .error (.readOnlyFieldError f2.toField.qualname obj2.objRepr))) := by
  refine ⟨?_, ?_, ?_⟩
  · intro h
    obtain ⟨hv, hobj⟩ := descSet_ok f obj obj2 v v2 h
    rw [hobj, getattr_setattr_self]
  · intro hset
    exact descSet_readonly_blocked f obj v hRO hset
  · intro h
    obtain ⟨hn, _, hro2, _, _⟩ := descGet_preserves f f2 obj obj2 _ h
    have hstored := descGet_ok_stored f f2 obj obj2 v2 h
    rw [← hn] at hstored
    refine ⟨hstored, ?_⟩
    exact descSet_readonly_blocked f2 obj2 w (by rw [hro2, hRO]) (by rw [hstored]; rfl)

/-- A read-only optional descriptor field `Wall.color` with fixed default
`'white'` (so `_default_is_safe` starts as "validate once"). -/
def wallColorRO : DescriptorField :=
  { name := "color", ownerQualname := "Wall",
    defaultPolicy := .value (Value.vstr "white"),
    typeHint := none, nonable := .unknown, checkType := false,
    rootValidator := none, converters := none, readOnly := true,
    defaultIsSafe := initDefaultIsSafe (.value (Value.vstr "white")) false }

/-- State of `wallColorRO` after its first read (the default was validated and
marked safe). -/
def wallColorROAfterRead : DescriptorField :=
  { wallColorRO with defaultIsSafe := DefaultSafety.safe }

/-- The `Wall` instance after `color` materialized its default. -/
def wallObjColorSet : Obj := wallObj.setattr "_color" (Value.vstr "white")

/-- Witness for C2: on the concrete read-only `Wall.color` with default
`'white'`, the first read materializes and stores the default, and the
next write raises `ReadOnlyFieldError`. -/
theorem claim_C2_witness :
    wallObjColorSet.getattr "_color" = some (Value.vstr "white") ∧
    descSet wallColorROAfterRead wallObjColorSet (Value.vstr "blue") =
      (wallObjColorSet,
       .error (.readOnlyFieldError "Wall.color" "<Wall object at 0x7f>")) :=
  (claim_C2_read_only wallColorRO wallColorROAfterRead wallObj wallObjColorSet
     Value.vnone (Value.vstr "white") (Value.vstr "blue") rfl).2.2 (by rfl)

/-- C3.  On every write, after the conversion step: a `None` candidate
on an explicitly nonable field skips the type check and the validators
entirely and is stored; a `None` candidate on an explicitly non-nonable
field fails with `NoneError`; with unknown nonability, `None` flows into
the type check and the validators like any other value. -/
theorem claim_C3_nonable_short_circuit (f : DescriptorField) (obj : Obj) (v : Value)
    (hnb : (f.readOnly && (obj.getattr ("_" ++ f.name)).isSome) = false)
    (hcand : convertedCandidate f obj v = Value.vnone) :
    (f.nonable = Nonable.yes →
       descSet f obj v = (obj.setattr ("_" ++ f.name) Value.vnone, .ok Value.vnone)) ∧
    (f.nonable = Nonable.no →
       descSet f obj v = (obj, .error (.noneError f.toField.qualname))) ∧
    (f.nonable = Nonable.unknown →
       (f.checkType = true → f.typeHint = none →
          descSet f obj v = (obj, .error .configError)) ∧
       (∀ ts, f.checkType = true → f.typeHint = some ts →
          isInstance Value.vnone ts = false →
          descSet f obj v =
            (obj, .error (.fieldTypeError f.toField.qualname ts "NoneType" "None"))) ∧
       (∀ validate, f.rootValidator = some validate → validate obj Value.vnone = false →
          (f.checkType = false ∨ ∃ ts, f.typeHint = some ts ∧ isInstance Value.vnone ts = true) →
          descSet f obj v = (obj, .error (.validationError f.toField.qualname))) ∧
       ((f.checkType = false ∨ ∃ ts, f.typeHint = some ts ∧ isInstance Value.vnone ts = true) →
        (∀ validate, f.rootValidator = some validate → validate obj Value.vnone = true) →
          descSet f obj v = (obj.setattr ("_" ++ f.name) Value.vnone, .ok Value.vnone))) := by
  refine ⟨?_, ?_, ?_⟩
  · intro hyes
    simp [descSet, descSetChecks, hcand, hnb, hyes]
  · intro hno
    simp [descSet, descSetChecks, hcand, hnb, hno]
  · intro hunk
    refine ⟨?_, ?_, ?_, ?_⟩
    · intro hct hth
      simp [descSet, descSetChecks, hcand, hnb, hunk, hct, hth]
    · intro ts hct hth hinst
      simp [descSet, descSetChecks, hcand, hnb, hunk, hct, hth, hinst,
            Value.clsName, Value.reprStr]
    · intro validate hval hrej hok
      rcases hok with hct | ⟨ts, hth, hinst⟩
      · simp [descSet, descSetChecks, hcand, hnb, hunk, hct, hval, hrej]
      · cases hct : f.checkType
        · simp [descSet, descSetChecks, hcand, hnb, hunk, hct, hval, hrej]
        · simp [descSet, descSetChecks, hcand, hnb, hunk, hct, hth, hinst, hval, hrej]
    · intro hok hvals
      have store : descSetChecks f obj Value.vnone = none := by
        rcases hok with hct | ⟨ts, hth, hinst⟩
        · cases hval : f.rootValidator with
          | none => simp [descSetChecks, hunk, hct, hval]
          | some validate => simp [descSetChecks, hunk, hct, hval, hvals validate hval]
        · cases hct : f.checkType
          · cases hval : f.rootValidator with
            | none => simp [descSetChecks, hunk, hct, hval]
            | some validate => simp [descSetChecks, hunk, hct, hval, hvals validate hval]
          · cases hval : f.rootValidator with
            | none => simp [descSetChecks, hunk, hct, hth, hinst, hval]
            | some validate =>
                simp [descSetChecks, hunk, hct, hth, hinst, hval, hvals validate hval]
      simp [descSet, hcand, hnb, store]

/-- A fresh `Foo` instance. -/
def fooObj : Obj := { objRepr := "<Foo object at 0x7f>", dict := [] }

/-- A nonable, type-checked field `Foo.g` with a validator that rejects
everything (to exhibit the short-circuit). -/
def gNonable : DescriptorField :=
  { name := "g", ownerQualname := "Foo", defaultPolicy := .mandatory,
    typeHint := some [PyType.tInt], nonable := .yes, checkType := true,
    rootValidator := some (fun _ _ => false), converters := none, readOnly := false,
    defaultIsSafe := .alwaysValidate }

/-- An explicitly non-nonable field `Foo.f`. -/
def fNotNonable : DescriptorField :=
  { name := "f", ownerQualname := "Foo", defaultPolicy := .mandatory,
    typeHint := none, nonable := .no, checkType := false,
    rootValidator := none, converters := none, readOnly := false,
    defaultIsSafe := .alwaysValidate }

/-- Witness for C3: `g = None` succeeds without invoking the type check or
the (always-failing) validator; `f = None` raises `NoneError`. -/
theorem claim_C3_witness :
    descSet gNonable fooObj Value.vnone =
      (fooObj.setattr "_g" Value.vnone, .ok Value.vnone) ∧
    descSet fNotNonable fooObj Value.vnone =
      (fooObj, .error (.noneError "Foo.f")) :=
  ⟨(claim_C3_nonable_short_circuit gNonable fooObj Value.vnone rfl rfl).1 rfl,
   (claim_C3_nonable_short_circuit fNotNonable fooObj Value.vnone rfl rfl).2.1 rfl⟩

/-- C4.  On a write to a field with converters, the converters are
tried in declaration order; a converter whose probe raises or rejects is
skipped, a converter whose probe accepts but whose conversion raises is
skipped, and the first converter whose probe accepts and whose conversion
succeeds supplies the candidate; if no converter succeeds the original
value is used unchanged as the candidate and the conversion step raises
no error. -/
theorem claim_C4_converter_chain (c : Converter) (rest convs : List Converter)
    (f : DescriptorField) (obj : Obj) (v w : Value) (acc : Option Bool) :
    (c.accepts obj v = .error () →
       applyConverters (c :: rest) obj v = applyConverters rest obj v) ∧
    (c.accepts obj v = .ok acc → acc.getD true = false →
       applyConverters (c :: rest) obj v = applyConverters rest obj v) ∧
    (c.accepts obj v = .ok acc → acc.getD true = true → c.convert obj v = .error () →
       applyConverters (c :: rest) obj v = applyConverters rest obj v) ∧
    (c.accepts obj v = .ok acc → acc.getD true = true → c.convert obj v = .ok w →
       applyConverters (c :: rest) obj v = w) ∧
    ((∀ c2 ∈ convs, converterFails c2 obj v) → applyConverters convs obj v = v) ∧
    (f.converters = some convs →
       convertedCandidate f obj v = applyConverters convs obj v) ∧
    (f.converters = some convs → (∀ c2 ∈ convs, converterFails c2 obj v) →
       descSet f obj v = descSet { f with converters := none } obj v) := by
  refine ⟨?_, ?_, ?_, ?_, ?_, ?_, ?_⟩
  · intro herr
    simp [applyConverters, herr]
  · intro hacc hrej
    simp [applyConverters, hacc, hrej]
  · intro hacc hok hcerr
    simp [applyConverters, hacc, hok, hcerr]
  · intro hacc hok hcok
    simp [applyConverters, hacc, hok, hcok]
  · exact applyConverters_all_fail convs obj v
  · intro hconv
    simp [convertedCandidate, hconv]
  · intro hconv hfail
    have h1 : convertedCandidate f obj v = v := by
      simp [convertedCandidate, hconv, applyConverters_all_fail convs obj v hfail]
    have h2 : convertedCandidate { f with converters := none } obj v = v := rfl
    unfold descSet
    rw [h1, h2]
    rfl

/-- Witness for C4: the concrete `(str, parse_int)` converter converts
`'6'` to `6`, and rejects a float so that `6.0` passes through the
conversion step unchanged. -/
theorem claim_C4_witness :
    applyConverters [parseIntConverter] wallObj (Value.vstr "6") = Value.vint 6 ∧
    applyConverters [parseIntConverter] wallObj (Value.vfloat 6 0) = Value.vfloat 6 0 := by
  constructor
  · exact (claim_C4_converter_chain parseIntConverter [] [] wallHeightConv wallObj
      (Value.vstr "6") (Value.vint 6) (some true)).2.2.2.1 rfl rfl rfl
  · refine (claim_C4_converter_chain parseIntConverter [] [parseIntConverter]
      wallHeightConv wallObj (Value.vfloat 6 0) (Value.vfloat 6 0) (some false)).2.2.2.2.1 ?_
    intro c2 hc2
    rw [List.mem_singleton] at hc2
    rw [hc2]
    exact Or.inr (Or.inl ⟨some false, rfl, rfl⟩)

/-- C9 (amended).  The messages of `ReadOnlyFieldError` and
`NoneError` as raised by the descriptor protocol name the fully qualified
field (owning class + field name), and `FieldTypeError`'s message does
too; the message of `MandatoryFieldInitError` names the plain field name
and the instance, but not necessarily the owning class. -/
theorem claim_C9_error_messages (f : DescriptorField) (obj : Obj) (v : Value) :
    (f.readOnly = true → (obj.getattr ("_" ++ f.name)).isSome = true →
       descSet f obj v =
         (obj, .error (.readOnlyFieldError f.toField.qualname obj.objRepr)) ∧
       strContains (errMsg (.readOnlyFieldError f.toField.qualname obj.objRepr))
         f.toField.qualname = true ∧
       strContains (errMsg (.readOnlyFieldError f.toField.qualname obj.objRepr))
         obj.objRepr = true) ∧
    ((f.readOnly && (obj.getattr ("_" ++ f.name)).isSome) = false →
       convertedCandidate f obj v = Value.vnone → f.nonable = Nonable.no →
       descSet f obj v = (obj, .error (.noneError f.toField.qualname)) ∧
       strContains (errMsg (.noneError f.toField.qualname)) f.toField.qualname = true) ∧
    (f.toField.isMandatory = true → obj.getattr ("_" ++ f.name) = none →
       descGet f obj = (f, obj, .error (.mandatoryFieldInitError f.name obj.objRepr)) ∧
       strContains (errMsg (.mandatoryFieldInitError f.name obj.objRepr)) f.name = true ∧
       strContains (errMsg (.mandatoryFieldInitError f.name obj.objRepr)) obj.objRepr = true) ∧
    (∀ q ts cn vr, strContains (errMsg (.fieldTypeError q ts cn vr)) q = true) := by
  refine ⟨?_, ?_, ?_, ?_⟩
  · intro hRO hset
    refine ⟨descSet_readonly_blocked f obj v hRO hset, ?_, ?_⟩
    · exact strContains_of_data _ _ ("Read-only field '".data)
        (("' has already been initialized on instance ").data
          ++ (obj.objRepr.data ++ (" and cannot be modified anymore.").data))
        (by simp [errMsg, String.data_append, List.append_assoc])
    · exact strContains_of_data _ _
        ("Read-only field '".data ++ (f.toField.qualname.data
          ++ ("' has already been initialized on instance ").data))
        (" and cannot be modified anymore.".data)
        (by simp [errMsg, String.data_append, List.append_assoc])
  · intro hnb hcand hno
    refine ⟨?_, ?_⟩
    · simp [descSet, descSetChecks, hcand, hnb, hno]
    · exact strContains_of_data _ _ ("Received invalid value `None` for '".data)
        ("'. This field is explicitely declared as non-nonable.".data)
        (by simp [errMsg, String.data_append, List.append_assoc])
  · intro hm hu
    have hd := isMandatory_eq f.toField hm
    refine ⟨by unfold descGet; simp [hu, hd], ?_, ?_⟩
    · exact strContains_of_data _ _ ("Mandatory field '".data)
        (("' has not been initialized yet on instance ").data
          ++ (obj.objRepr.data ++ ".".data))
        (by simp [errMsg, String.data_append, List.append_assoc])
    · exact strContains_of_data _ _
        ("Mandatory field '".data ++ (f.name.data
          ++ ("' has not been initialized yet on instance ").data)) (".".data)
        (by simp [errMsg, String.data_append, List.append_assoc])
  · intro q ts cn vr
    exact strContains_of_data _ _ ("Invalid value type provided for '".data)
        (("'. ".data) ++ ((fieldTypeSubMsg ts).data
          ++ ((". Instead, received a '".data) ++ (cn.data ++ ("': ".data ++ vr.data)))))
        (by simp [errMsg, String.data_append, List.append_assoc])

/-- Counterexample for C9 as stated: the `MandatoryFieldInitError` raised
by reading the unset mandatory `Wall.height` has a message naming only
the plain field name and the instance; it does not contain the fully
qualified field `Wall.height`. -/
theorem claim_C9_counterexample :
    descGet wallHeight wallObj =
      (wallHeight, wallObj,
        .error (.mandatoryFieldInitError "height" "<Wall object at 0x7f>")) ∧
    errMsg (.mandatoryFieldInitError "height" "<Wall object at 0x7f>") =
      "Mandatory field 'height' has not been initialized yet on instance <Wall object at 0x7f>." ∧
    Field.qualname wallHeight.toField = "Wall.height" ∧
    strContains
      (errMsg (.mandatoryFieldInitError "height" "<Wall object at 0x7f>"))
      "Wall.height" = false :=
  ⟨rfl, rfl, rfl, by decide⟩

/-- Witness for C9 (amended): the concrete read-only failure names the
fully qualified `Wall.height` in its message. -/
theorem claim_C9_witness :
    descSet wallHeightRO wallObjSet (Value.vint 1) =
      (wallObjSet, .error (.readOnlyFieldError "Wall.height" "<Wall object at 0x7f>")) ∧
    strContains (errMsg (.readOnlyFieldError "Wall.height" "<Wall object at 0x7f>"))
      "Wall.height" = true :=
  have h := (claim_C9_error_messages wallHeightRO wallObjSet (Value.vint 1)).1 rfl rfl
  ⟨h.1, h.2.1⟩

/-- Witness for C10: the failing write to an already-set read-only field
leaves the instance untouched. -/
theorem claim_C10_witness :
    wallObjSet = wallObjSet ∧
    wallObjSet.getattr ("_" ++ wallHeightRO.name) =
      wallObjSet.getattr ("_" ++ wallHeightRO.name) :=
  claim_C10_failed_write_atomic wallHeightRO wallObjSet wallObjSet (Value.vint 1)
    (.readOnlyFieldError "Wall.height" "<Wall object at 0x7f>") (by rfl)

/-- The full effect of `_insert_fields_at_position(fields, [self], 1)`:
the names are recorded in reverse iteration order, `last_mandatory_idx`
ends just past the mandatory block, and the parameter list is `self`,
then the mandatory fields in relative order, then the optional fields in
relative order. -/
theorem insertFieldsAtPosition_self (fs : List Field) :
    insertFieldsAtPosition fs [selfParam] 1 =
      (fs.reverse.map Field.name,
       1 + ((fs.filter Field.isMandatory).map Field.toParam).length,
       selfParam :: (((fs.filter Field.isMandatory).map Field.toParam)
         ++ ((fs.filter (fun g => ! g.isMandatory)).map Field.toParam))) := by
  induction fs with
  | nil => rfl
  | cons f rest ih =>
    have hstep : insertFieldsAtPosition (f :: rest) [selfParam] 1
        = insertFieldsStep 1 (insertFieldsAtPosition rest [selfParam] 1) f := by
      unfold insertFieldsAtPosition
      rw [List.reverse_cons, List.foldl_append, List.foldl_cons, List.foldl_nil]
    rw [hstep, ih]
    cases hpol : f.defaultPolicy with
    | mandatory =>
      have hm : f.isMandatory = true := by simp [Field.isMandatory, hpol]
      have hfiltM : List.filter Field.isMandatory (f :: rest)
          = f :: List.filter Field.isMandatory rest := by
        simp [List.filter_cons, hm]
      have hfiltO : List.filter (fun g => !g.isMandatory) (f :: rest)
          = List.filter (fun g => !g.isMandatory) rest := by
        simp [List.filter_cons, hm]
      simp only [insertFieldsStep, hpol, hfiltM, hfiltO]
      refine (Prod.mk.injEq _ _ _ _).mpr ⟨?_, (Prod.mk.injEq _ _ _ _).mpr ⟨?_, ?_⟩⟩
      · simp
      · simp only [List.map_cons, List.length_cons]
        omega
      · simp only [insertAt, List.take_succ_cons, List.take_zero, List.drop_succ_cons,
          List.drop_zero, List.map_cons]
        simp [Field.toParam, hpol]
    | value dv =>
      have hm : f.isMandatory = false := by simp [Field.isMandatory, hpol]
      have hfiltM : List.filter Field.isMandatory (f :: rest)
          = List.filter Field.isMandatory rest := by
        simp [List.filter_cons, hm]
      have hfiltO : List.filter (fun g => !g.isMandatory) (f :: rest)
          = f :: List.filter (fun g => !g.isMandatory) rest := by
        simp [List.filter_cons, hm]
      simp only [insertFieldsStep, hpol, hfiltM, hfiltO]
      refine (Prod.mk.injEq _ _ _ _).mpr ⟨?_, (Prod.mk.injEq _ _ _ _).mpr ⟨?_, ?_⟩⟩
      · simp
      · rfl
      · simp only [insertAt, Nat.add_comm 1
          ((List.map Field.toParam (List.filter Field.isMandatory rest)).length),
          List.take_succ_cons, List.drop_succ_cons, List.take_left, List.drop_left,
          List.map_cons]
        simp [Field.toParam, hpol]
    | factory gen =>
      have hm : f.isMandatory = false := by simp [Field.isMandatory, hpol]
      have hfiltM : List.filter Field.isMandatory (f :: rest)
          = List.filter Field.isMandatory rest := by
        simp [List.filter_cons, hm]
      have hfiltO : List.filter (fun g => !g.isMandatory) (f :: rest)
          = f :: List.filter (fun g => !g.isMandatory) rest := by
        simp [List.filter_cons, hm]
      simp only [insertFieldsStep, hpol, hfiltM, hfiltO]
      refine (Prod.mk.injEq _ _ _ _).mpr ⟨?_, (Prod.mk.injEq _ _ _ _).mpr ⟨?_, ?_⟩⟩
      · simp
      · rfl
      · simp only [insertAt, Nat.add_comm 1
          ((List.map Field.toParam (List.filter Field.isMandatory rest)).length),
          List.take_succ_cons, List.drop_succ_cons, List.take_left, List.drop_left,
          List.map_cons]
        simp [Field.toParam, hpol]

/-! ## Registry lemmas for C5 -/

theorem contains_cons_ne (al : List String) (nm x : String) (h : x ≠ nm) :
    (nm :: al).contains x = al.contains x := by
  simp [List.contains, List.elem_eq_mem, List.mem_cons, h]

theorem contains_reverse (l : List String) (x : String) :
    l.reverse.contains x = l.contains x := by
  simp [List.contains, List.elem_eq_mem, List.mem_reverse]

theorem classFieldEntries_cons_init (mem : Option FieldRef) (rest : List Member) :
    classFieldEntries (("__init__", mem) :: rest) = classFieldEntries rest := by
  simp [classFieldEntries]

theorem classFieldEntries_cons_none (nm : String) (rest : List Member) :
    classFieldEntries ((nm, none) :: rest) = classFieldEntries rest := by
  simp [classFieldEntries]

theorem classFieldEntries_cons_some (nm : String) (fobj : FieldRef)
    (rest : List Member) (h : ¬ nm = "__init__") :
    classFieldEntries ((nm, some fobj) :: rest) = (nm, fobj) :: classFieldEntries rest := by
  simp [classFieldEntries, h]

/-- What one class pass of `yield_fields` yields for one of its field
members: the member itself for the queried class, and the most-derived
override (falling back to the member when the name is not a field on the
queried class) for an ancestor. -/
def yieldOf (clsMro : List (List Member)) (isCls : Bool) (e : String × FieldRef) :
    FieldRef :=
  if isCls then e.2 else (getField clsMro e.1).getD e.2

/-- One step of the outer registry walk. -/
theorem yieldFieldsFrom_cons (clsMro : List (List Member)) (ms : List Member)
    (isCls : Bool) (rest : List (List Member × Bool)) (al : List String) :
    yieldFieldsFrom clsMro ((ms, isCls) :: rest) al =
      (processClass clsMro isCls ms al).1
        ++ yieldFieldsFrom clsMro rest (processClass clsMro isCls ms al).2 := rfl

/-- Closed form for one class pass of the registry walk: with
duplicate-free member names (guaranteed by `vars()`), the pass yields
exactly the class's field entries whose names were not already yielded,
each mapped through the override lookup, and records their names. -/
theorem processClass_eq (clsMro : List (List Member)) (isCls : Bool)
    (ms : List Member) (al : List String)
    (hnd : ((classFieldEntries ms).map Prod.fst).Nodup) :
    processClass clsMro isCls ms al =
      (((classFieldEntries ms).filter (fun e => !(al.contains e.1))).map
          (yieldOf clsMro isCls),
       ((((classFieldEntries ms).filter (fun e => !(al.contains e.1))).map
          Prod.fst).reverse) ++ al) := by
  induction ms generalizing al with
  | nil => simp [processClass, classFieldEntries]
  | cons m rest ih =>
    obtain ⟨nm, mem⟩ := m
    by_cases hinit : nm = "__init__"
    · subst hinit
      rw [classFieldEntries_cons_init]
      have := ih al (by rwa [classFieldEntries_cons_init] at hnd)
      simpa [processClass] using this
    · cases mem with
      | none =>
        rw [classFieldEntries_cons_none]
        have := ih al (by rwa [classFieldEntries_cons_none] at hnd)
        simpa [processClass, hinit] using this
      | some fobj =>
        rw [classFieldEntries_cons_some nm fobj rest hinit]
        rw [classFieldEntries_cons_some nm fobj rest hinit] at hnd
        rw [List.map_cons, List.nodup_cons] at hnd
        obtain ⟨hnotin, hndrest⟩ := hnd
        by_cases hal : al.contains nm = true
        · -- already yielded: skipped, and the head entry is filtered out
          have hrec := ih al hndrest
          simp only [processClass, hinit, hal, List.filter_cons]
          simp [hal, hrec]
        · -- fresh name: yielded, name recorded
          have hal2 : al.contains nm = false := by
            revert hal
            cases al.contains nm <;> simp
          have hcongr : (classFieldEntries rest).filter
                (fun e => !((nm :: al).contains e.1))
              = (classFieldEntries rest).filter (fun e => !(al.contains e.1)) := by
            refine List.filter_congr ?_
            intro e he
            have hne : e.1 ≠ nm := by
              intro hcontra
              have hmem : e.1 ∈ (classFieldEntries rest).map Prod.fst :=
                List.mem_map_of_mem Prod.fst he
              rw [hcontra] at hmem
              exact hnotin hmem
            rw [contains_cons_ne al nm e.1 hne]
          have hrec := ih (nm :: al) hndrest
          rw [hcongr] at hrec
          simp only [processClass, hinit, hal2, List.filter_cons]
          simp only [Bool.false_eq_true, if_false, ite_false, Bool.not_false, if_true,
            ite_true, not_false_eq_true, if_neg, hrec]
          simp [yieldOf, List.append_assoc]
          cases getField clsMro nm <;> rfl

/-- C5.  The field registry with ancestors-first ordering and
duplicate removal: for a two-level hierarchy, the walk yields the base
class's field entries in declaration order -- each replaced by the
subclass's overriding field object when the subclass redeclares the name
as a field -- followed by the subclass's own new field entries in
declaration order.  An overriding field is thus yielded at the position
of the ancestor's field of the same name. -/
theorem claim_C5_registry_order (subM baseM : List Member)
    (hb : ((classFieldEntries baseM).map Prod.fst).Nodup)
    (hs : ((classFieldEntries subM).map Prod.fst).Nodup) :
    yieldFields [subM, baseM] =
      (classFieldEntries baseM).map
        (fun e => (getField [subM, baseM] e.1).getD e.2)
      ++ ((classFieldEntries subM).filter
            (fun e => !(((classFieldEntries baseM).map Prod.fst).contains e.1))).map
          Prod.snd := by
  have hstart : yieldFields [subM, baseM] =
      yieldFieldsFrom [subM, baseM] [(baseM, false), (subM, true)] [] := rfl
  rw [hstart, yieldFieldsFrom_cons, yieldFieldsFrom_cons]
  -- base-class pass: nothing yielded yet, so no name is filtered out
  have hbase := processClass_eq [subM, baseM] false baseM [] hb
  have hfilt_nil : (classFieldEntries baseM).filter (fun e => !(([] : List String).contains e.1))
      = classFieldEntries baseM := by
    have : ∀ e ∈ classFieldEntries baseM,
        (!(([] : List String).contains e.1)) = (fun _ => true) e := by
      intro e _
      simp [List.contains, List.elem_eq_mem]
    rw [List.filter_congr this, List.filter_true]
  rw [hfilt_nil] at hbase
  rw [hbase]
  -- subclass pass: the already-yielded names are exactly the base entries'
  have hsub := processClass_eq [subM, baseM] true subM
    (((classFieldEntries baseM).map Prod.fst).reverse ++ []) hs
  have hcongr : (classFieldEntries subM).filter
        (fun e => !((((classFieldEntries baseM).map Prod.fst).reverse ++ []).contains e.1))
      = (classFieldEntries subM).filter
        (fun e => !(((classFieldEntries baseM).map Prod.fst).contains e.1)) := by
    refine List.filter_congr ?_
    intro e _
    rw [List.append_nil, contains_reverse]
  rw [hcongr] at hsub
  rw [hsub]
  show _ ++ (_ ++ yieldFieldsFrom _ [] _) = _
  simp only [yieldFieldsFrom, List.append_nil]
  -- the two passes yield through the override lookup and the identity,
  -- which is what `yieldOf` unfolds to for an ancestor and for the class
  congr 1

/-- Concrete field objects for the C5 scenario. -/
def fldA : FieldRef := ⟨0⟩

def fldB : FieldRef := ⟨1⟩

def fldC : FieldRef := ⟨2⟩

/-- The subclass's overriding `a` field object. -/
def fldA2 : FieldRef := ⟨3⟩

/-- Members `vars(Base)` for `class Base: a = field(); b = field()`. -/
def baseMembers : List Member := [("a", some fldA), ("b", some fldB)]

/-- Members `vars(Sub)` for `class Sub(Base): c = field(); a = field()`. -/
def subMembers : List Member := [("c", some fldC), ("a", some fldA2)]

/-- Witness for C5: the registry yields `[a, b, c]` with the overriding
`a` object in the ancestor's position, not `[b, c, a]`. -/
theorem claim_C5_witness :
    yieldFields [subMembers, baseMembers] = [fldA2, fldB, fldC] :=
  (claim_C5_registry_order subMembers baseMembers (by decide) (by decide)).trans
    (by decide)

/-- C6.  When no post-init function is supplied, the synthesized
constructor's parameter list is `self` followed by one parameter per
field, all mandatory fields immediately after `self` in their relative
declaration order, all optional fields (fixed default or default factory)
after all mandatory ones in their relative order; a default-factory field
appears in the signature with the `USE_FACTORY` sentinel as its default
rather than the factory itself. -/
theorem claim_C6_init_signature (fs : List Field) :
    createInitParams fs =
      selfParam :: ((fs.filter Field.isMandatory).map Field.toParam
        ++ (fs.filter (fun g => ! g.isMandatory)).map Field.toParam) ∧
    (∀ g ∈ fs, g.isDefaultFactory = true →
       g.toParam.default = some SigDefault.useFactory) := by
  constructor
  · unfold createInitParams
    rw [insertFieldsAtPosition_self]
  · intro g _ hfac
    cases hpol : g.defaultPolicy with
    | mandatory => simp [Field.isDefaultFactory, hpol] at hfac
    | value dv => simp [Field.isDefaultFactory, hpol] at hfac
    | factory gen => simp [Field.toParam, hpol]

/-- A mandatory `Wall.height : int` declaration. -/
def fldHeight : Field :=
  { name := "height", ownerQualname := "Wall", defaultPolicy := .mandatory,
    typeHint := some [PyType.tInt], nonable := .unknown }

/-- An optional `Wall.color : str = 'white'` declaration. -/
def fldColor : Field :=
  { name := "color", ownerQualname := "Wall",
    defaultPolicy := .value (Value.vstr "white"),
    typeHint := some [PyType.tStr], nonable := .unknown }

/-- An optional `Wall.items` declaration with a default factory. -/
def fldItems : Field :=
  { name := "items", ownerQualname := "Wall",
    defaultPolicy := .factory (fun _ => Value.vstr "[]"),
    typeHint := none, nonable := .unknown }

/-- Witness for C6: declaring `[color, height, items]` yields the
signature `(self, height, color='white', items=USE_FACTORY)`: the
mandatory `height` moved next to `self`, and the factory field carries
the sentinel. -/
theorem claim_C6_witness :
    createInitParams [fldColor, fldHeight, fldItems] =
      [selfParam,
       { name := "height", default := none, annotation := some [PyType.tInt] },
       { name := "color", default := some (SigDefault.value (Value.vstr "white")),
         annotation := some [PyType.tStr] },
       { name := "items", default := some SigDefault.useFactory, annotation := none }] ∧
    (Field.toParam fldItems).default = some SigDefault.useFactory := by
  have h := claim_C6_init_signature [fldColor, fldHeight, fldItems]
  refine ⟨?_, ?_⟩
  · rw [h.1]
    rfl
  · exact h.2 fldItems (by simp) rfl

/-- C7.  The `__init__` placeholder performs constructor synthesis
exactly once per class: on first access it resolves the field list,
builds the real `__init__`, installs it on the class as a permanent
replacement (the placeholder no longer exists there) and returns it to
the in-progress call; every later access uses the installed function with
no re-synthesis. -/
theorem claim_C7_init_descriptor_once (cls c2 : ClsState) (d : InitDescriptor)
    (g : InitFun) (h : cls.initSlot = InitSlot.placeholder d) :
    accessInit cls =
      (createInitFun (resolveFields d cls),
       { cls with initSlot := .installed (createInitFun (resolveFields d cls)) }, 1) ∧
    (∀ d2, InitSlot.installed (createInitFun (resolveFields d cls)) ≠ InitSlot.placeholder d2) ∧
    (c2.initSlot = .installed g → accessInit c2 = (g, c2, 0)) := by
  refine ⟨?_, ?_, ?_⟩
  · unfold accessInit
    rw [h]
  · intro d2 hcontra
    exact InitSlot.noConfusion hcontra
  · intro h2
    unfold accessInit
    rw [h2]

/-- The class `Wall` with its registry fields and the `make_init`
placeholder installed under `__init__`. -/
def wallCls : ClsState :=
  { registryFields := [fldHeight, fldColor], initSlot := .placeholder ⟨none⟩ }

/-- The `__init__` synthesized for `Wall`. -/
def wallInit : InitFun := createInitFun [fldHeight, fldColor]

/-- Witness for C7: the first access to `Wall.__init__` synthesizes and
installs the constructor; the second access returns the same installed
function without synthesizing again. -/
theorem claim_C7_witness :
    accessInit wallCls = (wallInit, { wallCls with initSlot := .installed wallInit }, 1) ∧
    accessInit { wallCls with initSlot := .installed wallInit } =
      (wallInit, { wallCls with initSlot := .installed wallInit }, 0) :=
  have h := claim_C7_init_descriptor_once wallCls
    { wallCls with initSlot := .installed wallInit } ⟨none⟩ wallInit rfl
  ⟨h.1, h.2.2 rfl⟩

end Pyfields
